import Mathlib

/-!
Shallow embedding of the rust_webdav core (src/webdav.rs, src/prop.rs,
src/errors.rs, src/filesystem.rs) and proofs about the claims of its
specification.

Conventions of the embedding:
* `u64` sizes and inode numbers become `Nat` (no claim involves wrap-around);
  `i64` timestamps become `Int`.
* `OsString` becomes `String` (every input considered is valid unicode, so the
  `NonUnicodeInPath` branch of the source can never fire in the model).
* fallible Rust code returns `Except Errors _`; a Rust `panic!`, `expect` or
  `unwrap` failure is the `crash` outcome; a loop that does not terminate is
  observed through an explicit fuel parameter as the `diverge` outcome.
* the XML library boundary (roxmltree) is embedded as the `XNode` tree with the
  exact `descendants` / `has_tag_name` / `text` / `has_children` semantics the
  source relies on; the chrono RFC2822 date parser is an abstract parameter
  `parseDate : String -> Option Int`.
* the HTTP transport inside `WebdavDrive::list` is abstracted: the filesystem
  layer receives a `Drive := String -> Except Errors (List PropRec)` oracle,
  which is the type `WebdavDrive::list` presents to `FuseFilesystem`.
-/

set_option autoImplicit false

deriving instance DecidableEq for Except

namespace RustWebdav

/-- Association-list lookup; model of `BTreeMap::get` (keys are unique in all
states the program builds, so first-match lookup agrees with the map). -/
def assocGet {α β : Type} [DecidableEq α] (k : α) : List (α × β) → Option β
  | [] => none
  | (k', v) :: rest => if k = k' then some v else assocGet k rest

/-- Error enumeration of src/errors.rs.  The two library error payloads
(roxmltree, chrono) are dropped: the source never inspects them. -/
inductive Errors where
  | WebDavReqeustFailed
  | PropSizeError
  | XMLDocumentParseError
  | XMLTagEmptyWhenItShouldNot (tag : String)
  | DateTimeConversionError
  | InodeNotFound (ino : Nat)
  | ParentInodeNotFound (ino : Nat)
  | ChildInodeNotFound (ino : Nat)
  | FileEntryMissing (ino : Nat)
  | FileDoesNotExist (name : String)
  | NonUnicodeInPath
deriving DecidableEq, Repr

/-- Resource type of src/prop.rs. -/
inductive ResourceType where
  | File
  | Collection
  | Invalid
deriving DecidableEq, Repr

/-- A parsed WebDAV property record (`Prop` in src/prop.rs). -/
structure PropRec where
  etag : String
  path : String
  size : Nat
  lastModified : Int
  resourceType : ResourceType
deriving DecidableEq, Repr

/-- The `PropBuilder::new()` defaults of src/prop.rs. -/
def propBuilderNew : PropRec :=
  { etag := "", path := "", size := 0, lastModified := -1,
    resourceType := ResourceType.Invalid }

/-! ## XML tree (roxmltree boundary) -/

/-- An XML node as roxmltree presents it: an element with a tag name and an
ordered list of child nodes, or a text node.  Attributes, comments and
processing instructions are never inspected by the source and are omitted. -/
inductive XNode where
  | elem (tag : String) (children : List XNode)
  | text (s : String)
deriving Repr

namespace XNode

/-- roxmltree `Node::tag_name().name()`: a text node has the empty name. -/
def tagName : XNode → String
  | .elem t _ => t
  | .text _ => ""

/-- roxmltree `Node::has_tag_name(name)` with a plain string argument compares
the local name only; text nodes never match. -/
def hasTagName (name : String) (n : XNode) : Bool :=
  match n with
  | .elem t _ => t = name
  | .text _ => false

/-- Children of a node (text nodes have none). -/
def childrenOf : XNode → List XNode
  | .elem _ cs => cs
  | .text _ => []

/-- roxmltree `Node::has_children()`: true iff the node has any child node,
text nodes included. -/
def hasChildren (n : XNode) : Bool :=
  !n.childrenOf.isEmpty

/-- roxmltree `Node::text()`: for an element, the content of its first child
when that child is a text node; for a text node, its own content. -/
def textOf : XNode → Option String
  | .elem _ (.text s :: _) => some s
  | .elem _ _ => none
  | .text s => some s

mutual
/-- roxmltree `Node::descendants()`: the node itself followed by all of its
descendants, in document order. -/
def descendants : XNode → List XNode
  | .elem t cs => .elem t cs :: descendantsList cs
  | .text s => [.text s]

/-- Descendants of a forest, in document order. -/
def descendantsList : List XNode → List XNode
  | [] => []
  | x :: xs => descendants x ++ descendantsList xs
end

end XNode

/-! ## The property parser (body of `WebdavDrive::list`, src/webdav.rs) -/

/-- Model of `str::replace('\x22', "")` as applied to the `getetag` text:
every double-quote character is removed, wherever it occurs. -/
def stripQuotes (s : String) : String :=
  ⟨s.data.filter (fun c => c ≠ '"')⟩

/-- Model of Rust `str::parse::<u64>()`: an optional leading `+`, then at
least one ASCII digit, value below `2 ^ 64`. -/
def parseU64 (s : String) : Option Nat :=
  let t := if s.startsWith "+" then s.drop 1 else s
  if t.data ≠ [] ∧ t.data.all Char.isDigit then
    let v := t.data.foldl (fun a c => a * 10 + (c.toNat - 48)) 0
    if v < 2 ^ 64 then some v else none
  else none

/-- The `resourcetype` match arm of `WebdavDrive::list`:
`el.has_children().then_some(()).map_or(File, Collection)`. -/
def resourcetypeOf (el : XNode) : ResourceType :=
  if el.hasChildren then ResourceType.Collection else ResourceType.File

/-- The `for el in props.children()` loop of `WebdavDrive::list`, folding the
recognized property tags into the builder; `parseDate` is the chrono RFC2822
parser at the library boundary. -/
def processPropChildren (parseDate : String → Option Int) :
    List XNode → PropRec → Except Errors PropRec
  | [], pb => .ok pb
  | el :: els, pb =>
    match el.tagName with
    | "getlastmodified" =>
      match el.textOf with
      | none => .error (.XMLTagEmptyWhenItShouldNot "getlastmodified")
      | some t =>
        match parseDate t with
        | none => .error .DateTimeConversionError
        | some ts => processPropChildren parseDate els { pb with lastModified := ts }
    | "resourcetype" =>
      processPropChildren parseDate els { pb with resourceType := resourcetypeOf el }
    | "getcontentlength" =>
      match el.textOf with
      | none => .error (.XMLTagEmptyWhenItShouldNot "getcontentlength")
      | some t =>
        match parseU64 t with
        | none => .error .PropSizeError
        | some n => processPropChildren parseDate els { pb with size := n }
    | "getetag" =>
      match el.textOf with
      | none => .error (.XMLTagEmptyWhenItShouldNot "getetag")
      | some t => processPropChildren parseDate els { pb with etag := stripQuotes t }
    | _ => processPropChildren parseDate els pb

/-- One iteration of the `for response in responses` loop: find the first
`prop` descendant and the first `href` descendant of the response element,
seed the builder with the href text, and fold the prop children. -/
def parseResponse (parseDate : String → Option Int) (resp : XNode) :
    Except Errors PropRec :=
  match resp.descendants.find? (XNode.hasTagName "prop") with
  | none => .error (.XMLTagEmptyWhenItShouldNot "prop")
  | some props =>
    match resp.descendants.find? (XNode.hasTagName "href") with
    | none => .error (.XMLTagEmptyWhenItShouldNot "href")
    | some hrefNode =>
      match hrefNode.textOf with
      | none => .error (.XMLTagEmptyWhenItShouldNot "href")
      | some href =>
        processPropChildren parseDate props.childrenOf
          { propBuilderNew with path := href }

/-- The push-into-`ret`, early-return-on-error loop of `WebdavDrive::list`. -/
def mapExcept {α β : Type} (f : α → Except Errors β) :
    List α → Except Errors (List β)
  | [] => .ok []
  | a :: rest =>
    match f a with
    | .error e => .error e
    | .ok b =>
      match mapExcept f rest with
      | .error e => .error e
      | .ok bs => .ok (b :: bs)

/-- All elements of the document with tag name `response`, in document order:
`parser.descendants().filter(has_tag_name("response"))`. -/
def responseNodes (doc : XNode) : List XNode :=
  doc.descendants.filter (XNode.hasTagName "response")

/-- The parsing portion of `WebdavDrive::list` (src/webdav.rs lines 52-126):
from a parsed XML document to the list of property records. -/
def listParse (parseDate : String → Option Int) (doc : XNode) :
    Except Errors (List PropRec) :=
  mapExcept (parseResponse parseDate) (responseNodes doc)

/-- The response elements that are direct children of the document root
element — the "top-level response blocks" of the specification (this is the
spec's reading, kept for comparison with `responseNodes`). -/
def topLevelResponses (doc : XNode) : List XNode :=
  doc.childrenOf.filter (XNode.hasTagName "response")

/-! ## The filesystem layer (src/filesystem.rs) -/

/-- The fuser `FUSE_ROOT_ID` constant: inode number of the filesystem root. -/
def FUSE_ROOT_ID : Nat := 1

/-- `InodeId::is_filesystem_root`. -/
def isFilesystemRoot (ino : Nat) : Bool :=
  ino = FUSE_ROOT_ID

/-- `FileState` of src/filesystem.rs. -/
inductive FileState where
  | Local
  | RemoteOnly
  | ChangedLocally
  | ChangedRemote
  | Conflict
  | Downloading
  | Uploading
deriving DecidableEq, Repr

/-- fuser file type, restricted to the two variants the source produces. -/
inductive FileType where
  | Directory
  | RegularFile
deriving DecidableEq, Repr

/-- `FileAttributes` of src/filesystem.rs. -/
structure FileAttributes where
  name : String
  size : Nat
  mtime : Int
  isDirectory : Bool
  state : FileState
deriving DecidableEq, Repr

/-- `FileAttributes::fuser_filetype`. -/
def FileAttributes.fuserFiletype (a : FileAttributes) : FileType :=
  if a.isDirectory then FileType.Directory else FileType.RegularFile

/-- `File` of src/filesystem.rs: cached attributes plus etag. -/
structure File where
  attr : FileAttributes
  etag : String
deriving DecidableEq, Repr

/-- Split a character list at every '/' (used to model unix path
components). -/
def splitSlash : List Char → List (List Char)
  | [] => [[]]
  | c :: rest =>
    let r := splitSlash rest
    if c = '/' then [] :: r
    else
      match r with
      | [] => [[c]]
      | seg :: segs => (c :: seg) :: segs

/-- Model of Rust `Path::file_name()` on the unix paths this program sees:
the last component after normalizing away empty segments and `.` segments;
`none` when there is no component left or the path terminates in `..`. -/
def fileName (s : String) : Option String :=
  let segs := (splitSlash s.data).map (fun l => (⟨l⟩ : String))
  let segs := segs.filter (fun c => c ≠ "" ∧ c ≠ ".")
  match segs.getLast? with
  | none => none
  | some l => if l = ".." then none else some l

/-- `impl From<Prop> for File` (src/filesystem.rs lines 70-96).  `none` is the
panic outcome: the source calls `panic!` on `ResourceType::Invalid` and
`expect` on a path without a final file-name component. -/
def fileFromProp (p : PropRec) : Option File :=
  let mk : Bool → Option File := fun isFolder =>
    match fileName p.path with
    | none => none
    | some nm =>
      some { attr := { name := nm, size := p.size, mtime := p.lastModified,
                       isDirectory := isFolder, state := FileState.RemoteOnly },
             etag := p.etag }
  match p.resourceType with
  | ResourceType.File => mk false
  | ResourceType.Collection => mk true
  | ResourceType.Invalid => none

/-- `Inode` of src/filesystem.rs: child-name map plus parent id. -/
structure Inode where
  children : List (String × Nat)
  parent : Nat
deriving DecidableEq, Repr

/-- `Inode::new`. -/
def Inode.new (parent : Nat) : Inode :=
  { children := [], parent := parent }

/-- The serving process's own uid/gid, which `File::to_file_attr` reads from
`/proc/self`; constant for the whole session. -/
structure Env where
  uid : Nat
  gid : Nat
deriving DecidableEq, Repr

/-- The fuser `FileAttr` record filled in by `File::to_file_attr`.  The four
`SystemTime` fields are represented by their offset in seconds from
`UNIX_EPOCH`. -/
structure FileAttr where
  ino : Nat
  size : Nat
  blocks : Nat
  atime : Int
  mtime : Int
  ctime : Int
  crtime : Int
  kind : FileType
  perm : Nat
  nlink : Nat
  uid : Nat
  gid : Nat
  rdev : Nat
  blksize : Nat
  flags : Nat
deriving DecidableEq, Repr

/-- `File::to_file_attr` (src/filesystem.rs lines 143-167). -/
def File.toFileAttr (env : Env) (f : File) (ino : Nat) : FileAttr :=
  { ino := ino
    size := f.attr.size
    blocks := f.attr.size / 4096
    atime := f.attr.mtime
    mtime := f.attr.mtime
    ctime := f.attr.mtime
    crtime := f.attr.mtime
    kind := f.attr.fuserFiletype
    perm := 0o77
    nlink := 0
    uid := env.uid
    gid := env.gid
    rdev := 0
    blksize := 4096
    flags := 0 }

/-- `File::init_root`. -/
def File.initRoot : File :=
  { attr := { name := "/", size := 0, mtime := 0, isDirectory := true,
              state := FileState.Local },
    etag := "root" }

/-- The mutable state of `FuseFilesystem`: the inode directory, the file
registry and the two allocation counters.  The `drive` handle is kept outside
the state as a read-only oracle. -/
structure State where
  inodes : List (Nat × Inode)
  files : List (Nat × File)
  nextInode : Nat
  nextFd : Nat
deriving DecidableEq, Repr

/-- `FuseFilesystem::init`: fresh maps holding only the root entries. -/
def initState : State :=
  { inodes := [(FUSE_ROOT_ID, Inode.new FUSE_ROOT_ID)]
    files := [(FUSE_ROOT_ID, File.initRoot)]
    nextInode := 2
    nextFd := 2 }

/-- `FuseFilesystem::next_inode`: returns the counter and increments it. -/
def nextInodeOp (st : State) : Nat × State :=
  (st.nextInode, { st with nextInode := st.nextInode + 1 })

/-- Result of running a fallible, possibly crashing, possibly diverging piece
of the filesystem layer: `crash` is a Rust panic, `diverge` is observed fuel
exhaustion of a loop with no other exit. -/
inductive Outcome (α : Type) where
  | ok (a : α)
  | err (e : Errors)
  | crash
  | diverge
deriving DecidableEq, Repr

/-- The interface `WebdavDrive::list` presents to the filesystem layer, as a
path-indexed oracle (transport and XML parsing are behind it). -/
def Drive : Type := String → Except Errors (List PropRec)

mutual
/-- `FuseFilesystem::_full_path_of_inode` (src/filesystem.rs lines 276-298),
with an explicit fuel parameter: look up the inode's own name in the file
registry, then its parent in the inode directory, then run the
`while !parent_inode.is_filesystem_root()` loop.  The `NonUnicodeInPath`
branch cannot fire since names are unicode in the model. -/
def fullPathAux : Nat → State → Nat → Outcome (List String)
  | 0, _, _ => Outcome.diverge
  | fuel + 1, st, ino =>
    match assocGet ino st.files with
    | none => Outcome.err (.FileEntryMissing ino)
    | some f =>
      match assocGet ino st.inodes with
      | none => Outcome.err (.ParentInodeNotFound ino)
      | some nd => pathWhile fuel st nd.parent [f.attr.name]

/-- The `while !parent_inode.is_filesystem_root()` loop body of
`_full_path_of_inode`.  `parent_inode` is never reassigned in the source, so
each iteration appends the recursively computed path of the same parent. -/
def pathWhile : Nat → State → Nat → List String → Outcome (List String)
  | 0, _, p, path =>
    if isFilesystemRoot p then Outcome.ok path else Outcome.diverge
  | fuel + 1, st, p, path =>
    if isFilesystemRoot p then Outcome.ok path
    else
      match fullPathAux fuel st p with
      | Outcome.ok sub => pathWhile fuel st p (path ++ sub)
      | Outcome.err e => Outcome.err e
      | Outcome.crash => Outcome.crash
      | Outcome.diverge => Outcome.diverge
end

/-- `FuseFilesystem::full_path_of_inode` (lines 301-305): reverse the segment
list and concatenate it (no separator is inserted; the root segment is "/"). -/
def fullPath (fuel : Nat) (st : State) (ino : Nat) : Outcome String :=
  match fullPathAux fuel st ino with
  | Outcome.ok segs => Outcome.ok (String.join segs.reverse)
  | Outcome.err e => Outcome.err e
  | Outcome.crash => Outcome.crash
  | Outcome.diverge => Outcome.diverge

/-- `FuseFilesystem::lookup_` (src/filesystem.rs lines 208-230).  Note: the
function takes `&self`, so it cannot mutate the maps, and the readdir
population call in the empty-children branch is commented out in the source;
the branch merely re-reads the same map entry. -/
def lookup_ (env : Env) (st : State) (parent : Nat) (name : String) :
    Except Errors FileAttr :=
  match assocGet parent st.inodes with
  | none => Except.error (.ParentInodeNotFound parent)
  | some pin0 =>
    let second : Except Errors Inode :=
      if pin0.children.isEmpty then
        match assocGet parent st.inodes with
        | none => Except.error (.ParentInodeNotFound parent)
        | some p => Except.ok p
      else Except.ok pin0
    match second with
    | Except.error e => Except.error e
    | Except.ok pin =>
      match assocGet name pin.children with
      | none => Except.error (.FileDoesNotExist name)
      | some ino =>
        match assocGet ino st.files with
        | none => Except.error (.ChildInodeNotFound ino)
        | some f => Except.ok (f.toFileAttr env ino)

/-- `FuseFilesystem::getattributes` (lines 269-272). -/
def getattributes (env : Env) (st : State) (ino : Nat) : Except Errors FileAttr :=
  match assocGet ino st.files with
  | none => Except.error (.InodeNotFound ino)
  | some f => Except.ok (f.toFileAttr env ino)

/-- A directory entry as `readdir2` returns it: inode id, file type, name. -/
abbrev DirEntry : Type := Nat × FileType × String

/-- Rust iterator `map` under a panicking closure: the conversion runs on
every element (a `skip` adapter still pulls the skipped elements through the
`map`), and a panic anywhere aborts the whole collect. -/
def mapOpt {α β : Type} (f : α → Option β) : List α → Option (List β)
  | [] => some []
  | a :: rest =>
    match f a with
    | none => none
    | some b =>
      match mapOpt f rest with
      | none => none
      | some bs => some (b :: bs)

/-- The `for f in _files` loop of `readdir2`: one `next_inode()` call per
file, pushing `(id, filetype, name)`. -/
def allocLoop : State → List File → List DirEntry × State
  | st, [] => ([], st)
  | st, f :: fs =>
    let p := nextInodeOp st
    let r := allocLoop p.2 fs
    ((p.1, f.attr.fuserFiletype, f.attr.name) :: r.1, r.2)

/-- The two synthesized entries `readdir2` pushes first when the offset is
zero: ".." for the parent and "." for the directory itself. -/
def readdirBase (nd : Inode) (ino offset : Nat) : List DirEntry :=
  if offset = 0 then
    [(nd.parent, FileType.Directory, ".."), (ino, FileType.Directory, ".")]
  else []

/-- `FuseFilesystem::readdir2` (src/filesystem.rs lines 232-267): resolve the
directory inode, synthesize ".." and "." when the offset is zero, compute the
absolute path, fetch the children from the drive, convert each property
record to a `File` (a conversion panic aborts), drop `offset` converted
entries, then allocate a fresh inode id for each remaining entry.  No entry is
registered in `inodes` and no `File` is stored in `files`. -/
def readdir2 (fuel : Nat) (drive : Drive) (st : State) (ino : Nat)
    (offset : Nat) : Outcome (List DirEntry) × State :=
  match assocGet ino st.inodes with
  | none => (Outcome.err (.InodeNotFound ino), st)
  | some nd =>
    match fullPath fuel st ino with
    | Outcome.err e => (Outcome.err e, st)
    | Outcome.crash => (Outcome.crash, st)
    | Outcome.diverge => (Outcome.diverge, st)
    | Outcome.ok path =>
      match drive path with
      | Except.error e => (Outcome.err e, st)
      | Except.ok props =>
        match mapOpt fileFromProp props with
        | none => (Outcome.crash, st)
        | some files =>
          (Outcome.ok (readdirBase nd ino offset ++
                        (allocLoop st (files.drop offset)).1),
           (allocLoop st (files.drop offset)).2)

/-! ## The kernel-facing `impl Filesystem` wrappers (lines 308-347) -/

/-- What a fuser reply channel observes from a handler: a successful reply, an
error reply with an errno, a process crash (panic), or a hang. -/
inductive KReply (α : Type) where
  | replied (a : α)
  | errorReply (errno : Nat)
  | crashed
  | hung
deriving DecidableEq, Repr

/-- libc `ENOENT`. -/
def ENOENT : Nat := 2

/-- `Filesystem::lookup` (lines 334-346): reply with the entry on success,
reply `ENOENT` on any error. -/
def lookupW (env : Env) (st : State) (parent : Nat) (name : String) :
    KReply FileAttr :=
  match lookup_ env st parent name with
  | Except.ok attr => KReply.replied attr
  | Except.error _ => KReply.errorReply ENOENT

/-- `Filesystem::lookup` seen with its state: the handler takes the state by
mutable reference but only ever calls the read-only `lookup_`, so the state it
hands back is the state it received. -/
def lookupOp (env : Env) (st : State) (parent : Nat) (name : String) :
    KReply FileAttr × State :=
  (lookupW env st parent name, st)

/-- `Filesystem::getattr` (lines 329-332): `self.getattributes(..).unwrap()`
— an error is a panic, never an error reply. -/
def getattrW (env : Env) (st : State) (ino : Nat) : KReply FileAttr :=
  match getattributes env st ino with
  | Except.ok attr => KReply.replied attr
  | Except.error _ => KReply.crashed

/-- `Filesystem::readdir` (lines 309-327): `offset.try_into().unwrap()`
panics on a negative offset, and `self.readdir2(..).unwrap()` panics on any
error; only the ok outcome produces a reply. -/
def readdirW (fuel : Nat) (drive : Drive) (st : State) (ino : Nat)
    (offset : Int) : KReply (List DirEntry) × State :=
  if offset < 0 then (KReply.crashed, st)
  else
    let r := readdir2 fuel drive st ino offset.toNat
    match r.1 with
    | Outcome.ok entries => (KReply.replied entries, r.2)
    | Outcome.err _ => (KReply.crashed, r.2)
    | Outcome.crash => (KReply.crashed, r.2)
    | Outcome.diverge => (KReply.hung, r.2)

/-! ## Statement-level predicates -/

/-- True iff the node has at least one child that is an element (what the
specification calls a "nested element"). -/
def hasElemChild (n : XNode) : Bool :=
  n.childrenOf.any fun c =>
    match c with
    | .elem _ _ => true
    | .text _ => false

/-- Every key present in the inode directory or the file registry is below the
next-inode counter.  This holds in every state the program can build (ids are
only ever handed out by `next_inode`) and makes freshly allocated ids new. -/
def freshInv (st : State) : Prop :=
  (∀ pr ∈ st.inodes, pr.1 < st.nextInode) ∧ (∀ pr ∈ st.files, pr.1 < st.nextInode)

instance (st : State) : Decidable (freshInv st) := by
  unfold freshInv
  infer_instance

/-! ## Concrete fixtures used by witnesses and counterexamples -/

/-- A date parser stub for documents that carry no `getlastmodified` tag. -/
def pdZero : String → Option Int := fun _ => some 0

/-- Credentials of the serving process in the examples. -/
def env0 : Env := { uid := 0, gid := 0 }

/-- A remote property record for the file `a.txt` at the root. -/
def propA : PropRec :=
  { etag := "e1", path := "/a.txt", size := 10, lastModified := 7,
    resourceType := ResourceType.File }

/-- A remote whose root listing contains the single file `a.txt`. -/
def drive0 : Drive := fun path =>
  if path = "/" then Except.ok [propA]
  else Except.error Errors.WebDavReqeustFailed

/-- A remote that fails every request. -/
def driveFail : Drive := fun _ => Except.error Errors.WebDavReqeustFailed

/-- A property record whose href is the bare root path `/`, which has no final
file-name component. -/
def propRoot : PropRec :=
  { etag := "e", path := "/", size := 0, lastModified := 0,
    resourceType := ResourceType.Collection }

/-- A remote whose root listing contains `propRoot`. -/
def driveRoot : Drive := fun path =>
  if path = "/" then Except.ok [propRoot]
  else Except.error Errors.WebDavReqeustFailed

/-- A multistatus document whose only `resourcetype` element contains a text
node but no nested element. -/
def docTextType : XNode :=
  .elem "multistatus"
    [ .elem "response"
        [ .elem "href" [.text "/x"]
        , .elem "prop" [ .elem "resourcetype" [.text " "] ]
        ]
    ]

/-- A multistatus document with one top-level response block that contains a
further, nested response block. -/
def docNested : XNode :=
  .elem "multistatus"
    [ .elem "response"
        [ .elem "href" [.text "/a"]
        , .elem "prop" []
        , .elem "response"
            [ .elem "href" [.text "/b"]
            , .elem "prop" []
            ]
        ]
    ]

/-- A multistatus document whose getetag text carries interior double quotes. -/
def docQuotedEtag : XNode :=
  .elem "multistatus"
    [ .elem "response"
        [ .elem "href" [.text "/q"]
        , .elem "prop" [ .elem "getetag" [.text "\"abc\"123\""] ]
        ]
    ]

/-- The record the parser produces when a response carries only an href: the
builder defaults with the given path. -/
def recPathOnly (p : String) : PropRec :=
  { etag := "", path := p, size := 0, lastModified := -1,
    resourceType := ResourceType.Invalid }

/-- Expected parse of `docQuotedEtag`: every double quote of the etag text is
gone. -/
def recQuoted : PropRec :=
  { etag := "abc123", path := "/q", size := 0, lastModified := -1,
    resourceType := ResourceType.Invalid }

/-- Expected parse of `docTextType`: the text-only resourcetype comes out as
Collection. -/
def recTextType : PropRec :=
  { etag := "", path := "/x", size := 0, lastModified := -1,
    resourceType := ResourceType.Collection }

/-- The fresh filesystem after one inode allocation: the state `readdir2`
leaves behind after listing one remote entry at the root. -/
def stRoot3 : State :=
  { inodes := [(FUSE_ROOT_ID, Inode.new FUSE_ROOT_ID)]
    files := [(FUSE_ROOT_ID, File.initRoot)]
    nextInode := 3
    nextFd := 2 }

/-- Directory file records for the two-level example structure. -/
def fileDirA : File :=
  { attr := { name := "a", size := 0, mtime := 0, isDirectory := true,
              state := FileState.RemoteOnly },
    etag := "ea" }

/-- File record for the leaf of the two-level example structure. -/
def fileLeafB : File :=
  { attr := { name := "b", size := 3, mtime := 0, isDirectory := false,
              state := FileState.RemoteOnly },
    etag := "eb" }

/-- A structure holding root 1, a directory 2 named "a" under the root, and a
file 3 named "b" under 2 — inode 3 sits at depth two, so its parent is not the
filesystem root. -/
def stDeep : State :=
  { inodes := [(1, Inode.new 1), (2, { children := [("b", 3)], parent := 1 }),
               (3, Inode.new 2)]
    files := [(1, File.initRoot), (2, fileDirA), (3, fileLeafB)]
    nextInode := 4
    nextFd := 2 }

/-! ## Theorems: helper lemmas -/

theorem mapExcept_ok_length {α β : Type} (f : α → Except Errors β) :
    ∀ (l : List α) (l' : List β), mapExcept f l = Except.ok l' → l'.length = l.length := by
  intro l
  induction l with
  | nil =>
    intro l' h
    unfold mapExcept at h
    cases h
    rfl
  | cons a rest ih =>
    intro l' h
    unfold mapExcept at h
    cases hfa : f a with
    | error e => rw [hfa] at h; cases h
    | ok b =>
      rw [hfa] at h
      cases hr : mapExcept f rest with
      | error e => rw [hr] at h; cases h
      | ok bs =>
        rw [hr] at h
        cases h
        simp [ih bs hr]

theorem mapExcept_ok_mem {α β : Type} (f : α → Except Errors β) :
    ∀ (l : List α) (l' : List β), mapExcept f l = Except.ok l' →
      ∀ b ∈ l', ∃ a ∈ l, f a = Except.ok b := by
  intro l
  induction l with
  | nil =>
    intro l' h b hb
    unfold mapExcept at h
    cases h
    simp at hb
  | cons a rest ih =>
    intro l' h b hb
    unfold mapExcept at h
    cases hfa : f a with
    | error e => rw [hfa] at h; cases h
    | ok c =>
      rw [hfa] at h
      cases hr : mapExcept f rest with
      | error e => rw [hr] at h; cases h
      | ok bs =>
        rw [hr] at h
        cases h
        rcases List.mem_cons.mp hb with hb | hb
        · exact ⟨a, List.mem_cons_self a rest, hb ▸ hfa⟩
        · obtain ⟨a', ha', hfa'⟩ := ih bs hr b hb
          exact ⟨a', List.mem_cons_of_mem a ha', hfa'⟩

theorem stripQuotes_no_quote (s : String) : '"' ∉ (stripQuotes s).data := by
  simp [stripQuotes]

theorem processPropChildren_etag (pd : String → Option Int) :
    ∀ (els : List XNode) (pb rec : PropRec),
      processPropChildren pd els pb = Except.ok rec →
      '"' ∉ pb.etag.data → '"' ∉ rec.etag.data := by
  intro els
  induction els with
  | nil =>
    intro pb rec h hq
    unfold processPropChildren at h
    cases h
    exact hq
  | cons el rest ih =>
    intro pb rec h hq
    unfold processPropChildren at h
    split at h
    · split at h
      · cases h
      · split at h
        · cases h
        · exact ih _ rec h hq
    · exact ih _ rec h hq
    · split at h
      · cases h
      · split at h
        · cases h
        · exact ih _ rec h hq
    · split at h
      · cases h
      · exact ih _ rec h (stripQuotes_no_quote _)
    · exact ih _ rec h hq

theorem parseResponse_etag (pd : String → Option Int) (resp : XNode) (rec : PropRec)
    (h : parseResponse pd resp = Except.ok rec) : '"' ∉ rec.etag.data := by
  unfold parseResponse at h
  split at h
  · cases h
  · split at h
    · cases h
    · split at h
      · cases h
      · exact processPropChildren_etag pd _ _ rec h (by simp [propBuilderNew])

/-! ## Theorems: the claims -/

/-- C10: every etag stored by the property parser is free of double-quote
characters — `str::replace` removes every occurrence, interior ones
included, and the builder's initial etag is empty. -/
theorem listParse_etag_free_of_quotes (pd : String → Option Int) (doc : XNode)
    (ps : List PropRec) (h : listParse pd doc = Except.ok ps) :
    ∀ p ∈ ps, '"' ∉ p.etag.data := by
  intro p hp
  obtain ⟨r, _, hok⟩ := mapExcept_ok_mem _ _ _ h p hp
  exact parseResponse_etag pd r p hok

/-- Witness for C10: parsing a document whose getetag text is
`"abc"123"` (quotes included) yields records whose etags carry no quote. -/
theorem listParse_etag_free_of_quotes_witness :
    '"' ∉ recQuoted.etag.data :=
  listParse_etag_free_of_quotes pdZero docQuotedEtag [recQuoted] (by decide)
    recQuoted (by decide)

/-- C6, counterexample: `docNested` has exactly one top-level response block,
yet the parser emits two property records, because it walks all `response`
descendants rather than the top-level children of the multistatus element. -/
theorem listParse_nested_response_counterexample :
    (topLevelResponses docNested).length = 1 ∧
    listParse pdZero docNested =
      Except.ok [recPathOnly "/a", recPathOnly "/b"] := by
  decide

/-- C6, amended: a successful parse emits exactly one property record per
`response` element anywhere in the document (its `descendants`), in document
order; for a document whose response elements are all top-level this count
coincides with the top-level block count. -/
theorem listParse_length (pd : String → Option Int) (doc : XNode)
    (ps : List PropRec) (h : listParse pd doc = Except.ok ps) :
    ps.length = (responseNodes doc).length :=
  mapExcept_ok_length _ _ _ h

/-- Witness for the amended C6 at the nested-response document. -/
theorem listParse_length_witness :
    [recPathOnly "/a", recPathOnly "/b"].length =
      (responseNodes docNested).length :=
  listParse_length pdZero docNested _ (by decide)

/-- C5, counterexample: a `resourcetype` element whose only child is a text
node contains no nested element, yet the parser classifies it as Collection
(`has_children` counts text nodes), where the claim demands File. -/
theorem resourcetype_text_only_counterexample :
    hasElemChild (XNode.elem "resourcetype" [XNode.text " "]) = false ∧
    listParse pdZero docTextType = Except.ok [recTextType] ∧
    ResourceType.Collection ≠ ResourceType.File := by
  decide

/-- C5, amended: the parser classifies a `resourcetype` element by the
presence of any child node: a nested element yields Collection, an entirely
childless element yields File, but any child — a bare text node included —
already yields Collection. -/
theorem resourcetypeOf_by_children (t : String) (cs : List XNode) :
    (hasElemChild (XNode.elem t cs) = true →
      resourcetypeOf (XNode.elem t cs) = ResourceType.Collection) ∧
    (cs = [] → resourcetypeOf (XNode.elem t cs) = ResourceType.File) ∧
    (cs ≠ [] → resourcetypeOf (XNode.elem t cs) = ResourceType.Collection) := by
  cases cs <;>
    simp [resourcetypeOf, XNode.hasChildren, XNode.childrenOf, hasElemChild]

/-- Witness for the amended C5: a nested `collection` element yields
Collection, an empty `resourcetype` yields File. -/
theorem resourcetypeOf_by_children_witness :
    resourcetypeOf (XNode.elem "resourcetype" [XNode.elem "collection" []]) =
      ResourceType.Collection ∧
    resourcetypeOf (XNode.elem "resourcetype" []) = ResourceType.File :=
  ⟨(resourcetypeOf_by_children "resourcetype" [XNode.elem "collection" []]).1
      (by decide),
   (resourcetypeOf_by_children "resourcetype" []).2.1 rfl⟩

theorem mapOpt_some_length {α β : Type} (f : α → Option β) :
    ∀ (l : List α) (l' : List β), mapOpt f l = some l' → l'.length = l.length := by
  intro l
  induction l with
  | nil =>
    intro l' h
    unfold mapOpt at h
    cases h
    rfl
  | cons a rest ih =>
    intro l' h
    unfold mapOpt at h
    cases hfa : f a with
    | none => rw [hfa] at h; cases h
    | some b =>
      rw [hfa] at h
      cases hr : mapOpt f rest with
      | none => rw [hr] at h; cases h
      | some bs =>
        rw [hr] at h
        cases h
        simp [ih bs hr]

theorem mapOpt_none_of_mem {α β : Type} (f : α → Option β) :
    ∀ (l : List α) (a : α), a ∈ l → f a = none → mapOpt f l = none := by
  intro l
  induction l with
  | nil => intro a ha; simp at ha
  | cons x rest ih =>
    intro a ha hfa
    unfold mapOpt
    rcases List.mem_cons.mp ha with h | h
    · subst h
      rw [hfa]
    · cases hfx : f x with
      | none => rfl
      | some b => rw [ih a h hfa]

theorem assocGet_none_of_lt {β : Type} :
    ∀ (l : List (Nat × β)) (n m : Nat), (∀ pr ∈ l, pr.1 < n) → n ≤ m →
      assocGet m l = none := by
  intro l
  induction l with
  | nil => intro n m _ _; rfl
  | cons x rest ih =>
    intro n m hall hle
    obtain ⟨k, v⟩ := x
    have hk := hall (k, v) (List.mem_cons_self _ rest)
    have hne : m ≠ k := by simp at hk; omega
    simp only [assocGet, if_neg hne]
    exact ih n m (fun pr hpr => hall pr (List.mem_cons_of_mem _ hpr)) hle

theorem allocLoop_frame :
    ∀ (fs : List File) (st : State),
      (allocLoop st fs).2.inodes = st.inodes ∧
      (allocLoop st fs).2.files = st.files ∧
      (allocLoop st fs).2.nextFd = st.nextFd ∧
      (allocLoop st fs).2.nextInode = st.nextInode + fs.length := by
  intro fs
  induction fs with
  | nil => intro st; simp [allocLoop]
  | cons f rest ih =>
    intro st
    obtain ⟨h1, h2, h3, h4⟩ := ih { st with nextInode := st.nextInode + 1 }
    simp only [allocLoop, nextInodeOp]
    refine ⟨h1, h2, h3, ?_⟩
    rw [h4]
    simp
    omega

theorem allocLoop_ids :
    ∀ (fs : List File) (st : State) (e : DirEntry),
      e ∈ (allocLoop st fs).1 → st.nextInode ≤ e.1 := by
  intro fs
  induction fs with
  | nil => intro st e he; simp [allocLoop] at he
  | cons f rest ih =>
    intro st e he
    simp only [allocLoop, nextInodeOp] at he
    rcases List.mem_cons.mp he with h | h
    · subst h; simp
    · have := ih { st with nextInode := st.nextInode + 1 } e h
      simp at this
      omega

/-- C7: two consecutive lookup calls against the same parent and name with no
intervening structural change return the same reply (hence the same inode
number and attributes): `lookup_` takes the filesystem immutably, so the state
the handler passes on is the state it received, and the second call repeats
the first. -/
theorem lookup_consecutive_calls_agree (env : Env) (st : State) (parent : Nat)
    (name : String) :
    (lookupOp env st parent name).2 = st ∧
    lookupOp env (lookupOp env st parent name).2 parent name =
      lookupOp env st parent name :=
  ⟨rfl, rfl⟩

/-- C3 (code bug): when the parent's child map is empty, `lookup_` performs no
readdir population step — the call is commented out in the source and the
model's signature shows no access to the drive — it merely re-reads the same
inode entry and reports the name as missing immediately. -/
theorem lookup_empty_children_skips_population (env : Env) (st : State)
    (parent : Nat) (name : String) (nd : Inode)
    (h1 : assocGet parent st.inodes = some nd) (h2 : nd.children = []) :
    lookup_ env st parent name = Except.error (Errors.FileDoesNotExist name) := by
  simp [lookup_, h1, h2, assocGet]

/-- Witness for C3: on the freshly initialized filesystem (root has no
children), looking up "a.txt" fails with FileDoesNotExist without any remote
fetch, whatever the remote holds. -/
theorem lookup_empty_children_skips_population_witness :
    lookup_ env0 initState 1 "a.txt" =
      Except.error (Errors.FileDoesNotExist "a.txt") :=
  lookup_empty_children_skips_population env0 initState 1 "a.txt" (Inode.new 1)
    (by decide) rfl

/-- C4, counterexample: `getattr` on an id absent from the file registry and
`readdir` on an id absent from the inode directory crash (the source unwraps
the error) instead of replying with a not-found or IO error; only `lookup`
replies `ENOENT`. -/
theorem getattr_readdir_crash_counterexample :
    getattrW env0 initState 2 = KReply.crashed ∧
    (readdirW 10 driveFail initState 5 0).1 = KReply.crashed ∧
    lookupW env0 initState 5 "x" = KReply.errorReply ENOENT := by
  decide

/-- C4, amended: `lookup` never crashes or hangs — every failure becomes an
`ENOENT` reply and the state is untouched, so the mount keeps serving — but
`getattr` crashes on any id missing from the file registry, and `readdir`
crashes on any id missing from the inode directory (its errors are unwrapped),
instead of returning a not-found or IO error. -/
theorem kernel_ops_error_behavior :
    (∀ (env : Env) (st : State) (parent : Nat) (name : String),
       lookupW env st parent name ≠ KReply.crashed ∧
       lookupW env st parent name ≠ KReply.hung ∧
       (lookupOp env st parent name).2 = st) ∧
    (∀ (env : Env) (st : State) (ino : Nat), assocGet ino st.files = none →
       getattrW env st ino = KReply.crashed) ∧
    (∀ (fuel : Nat) (drive : Drive) (st : State) (ino : Nat) (off : Int),
       assocGet ino st.inodes = none →
       (readdirW fuel drive st ino off).1 = KReply.crashed) := by
  refine ⟨?_, ?_, ?_⟩
  · intro env st parent name
    refine ⟨?_, ?_, rfl⟩ <;>
      · unfold lookupW
        cases lookup_ env st parent name <;> simp
  · intro env st ino h
    simp [getattrW, getattributes, h]
  · intro fuel drive st ino off h
    unfold readdirW
    split
    · rfl
    · simp [readdir2, h]

/-- Witness for the amended C4 at concrete inputs. -/
theorem kernel_ops_error_behavior_witness :
    lookupW env0 initState 1 "nope" ≠ KReply.crashed ∧
    getattrW env0 initState 2 = KReply.crashed ∧
    (readdirW 10 driveFail initState 5 0).1 = KReply.crashed :=
  ⟨(kernel_ops_error_behavior.1 env0 initState 1 "nope").1,
   kernel_ops_error_behavior.2.1 env0 initState 2 (by decide),
   kernel_ops_error_behavior.2.2 10 driveFail initState 5 0 (by decide)⟩

theorem fullPathAux_stDeep_two (n : Nat) :
    fullPathAux (n + 1) stDeep 2 = Outcome.ok ["a"] := by
  cases n <;>
    simp [fullPathAux, pathWhile, stDeep, assocGet, fileDirA,
          isFilesystemRoot, FUSE_ROOT_ID]

theorem pathWhile_stDeep_two :
    ∀ (n : Nat) (path : List String), pathWhile n stDeep 2 path = Outcome.diverge := by
  intro n
  induction n with
  | zero =>
    intro path
    simp [pathWhile, isFilesystemRoot, FUSE_ROOT_ID]
  | succ n ih =>
    intro path
    cases n with
    | zero => simp [pathWhile, fullPathAux, isFilesystemRoot, FUSE_ROOT_ID]
    | succ m =>
      simp only [pathWhile]
      rw [if_neg (by decide), fullPathAux_stDeep_two m]
      exact ih _

/-- C2 (code bug): path reconstruction does not terminate for an inode at
depth two.  The source's `while !parent_inode.is_filesystem_root()` loop never
reassigns `parent_inode`, so whenever an inode's parent is not the root the
walk loops forever (no depth guard exists): for every fuel bound the
reconstruction of inode 3's path in `stDeep` is still running.  The claim's
guaranteed termination holds only for the root and its direct children. -/
theorem full_path_reconstruction_diverges_at_depth_two :
    (assocGet 3 stDeep.inodes).isSome = true ∧
    (assocGet 3 stDeep.files).isSome = true ∧
    ∀ fuel, fullPath fuel stDeep 3 = Outcome.diverge := by
  refine ⟨by decide, by decide, ?_⟩
  intro fuel
  cases fuel with
  | zero => simp [fullPath, fullPathAux]
  | succ n =>
    have h : fullPathAux (n + 1) stDeep 3 = Outcome.diverge := by
      simp only [fullPathAux, stDeep, assocGet]
      norm_num
      exact pathWhile_stDeep_two n _
    simp [fullPath, h]

/-- C1 (code bug): a readdir at the root of a fresh filesystem whose remote
listing holds `a.txt` converts the record, allocates the fresh id 2 and
returns the entry `(2, RegularFile, "a.txt")` — but registers nothing: id 2 is
a child of no directory in the inode directory, no `File` record is stored for
it, and the filesystem's own `getattributes` cannot resolve the id it just
handed out. -/
theorem readdir_returns_unregistered_entries :
    readdir2 10 drive0 initState 1 0 =
      (Outcome.ok [(1, FileType.Directory, ".."), (1, FileType.Directory, "."),
                   (2, FileType.RegularFile, "a.txt")],
       stRoot3) ∧
    stRoot3.inodes = initState.inodes ∧
    stRoot3.files = initState.files ∧
    assocGet 2 stRoot3.inodes = none ∧
    assocGet 2 stRoot3.files = none ∧
    (∀ pr ∈ stRoot3.inodes, assocGet "a.txt" pr.2.children = none) ∧
    getattributes env0 stRoot3 2 = Except.error (Errors.InodeNotFound 2) := by
  decide

theorem fullPath_ok_inode_present (fuel : Nat) (st : State) (ino : Nat)
    (path : String) (h : fullPath fuel st ino = Outcome.ok path) :
    ∃ nd, assocGet ino st.inodes = some nd := by
  cases fuel with
  | zero => simp [fullPath, fullPathAux] at h
  | succ n =>
    unfold fullPath fullPathAux at h
    cases hf : assocGet ino st.files with
    | none => rw [hf] at h; simp at h
    | some f =>
      rw [hf] at h
      cases hi : assocGet ino st.inodes with
      | none => rw [hi] at h; simp at h
      | some nd => exact ⟨nd, rfl⟩

/-- C8: converting a property record whose path has no final file-name
component (an href of "/", or one ending in "..") panics — both the Invalid
resource-type check and the `expect` on `file_name()` abort — and therefore a
readdir whose fetched listing contains such a record crashes the process
instead of returning an error. -/
theorem conversion_crashes_without_file_name (p : PropRec)
    (hname : fileName p.path = none) :
    fileFromProp p = none ∧
    ∀ (fuel : Nat) (drive : Drive) (st : State) (ino off : Nat) (path : String)
      (props : List PropRec),
      fullPath fuel st ino = Outcome.ok path →
      drive path = Except.ok props →
      p ∈ props →
      (readdir2 fuel drive st ino off).1 = Outcome.crash := by
  have hconv : fileFromProp p = none := by
    cases hrt : p.resourceType <;> simp [fileFromProp, hname, hrt]
  refine ⟨hconv, ?_⟩
  intro fuel drive st ino off path props hfp hdr hmem
  obtain ⟨nd, hino⟩ := fullPath_ok_inode_present fuel st ino path hfp
  have hmap : mapOpt fileFromProp props = none :=
    mapOpt_none_of_mem _ props p hmem hconv
  simp [readdir2, hino, hfp, hdr, hmap]

/-- Witness for C8: a listing containing the bare href "/" makes readdir
crash. -/
theorem conversion_crashes_without_file_name_witness :
    fileFromProp propRoot = none ∧
    (readdir2 10 driveRoot initState 1 0).1 = Outcome.crash := by
  have h := conversion_crashes_without_file_name propRoot (by decide)
  exact ⟨h.1, h.2 10 driveRoot initState 1 0 "/" [propRoot] (by decide)
    (by decide) (by decide)⟩

/-- C9: a readdir call never touches the inode directory, the file registry
or the file-handle counter, whatever its outcome; on success it advances the
next-inode counter exactly once per fetched entry surviving the offset skip;
and, in any state whose registered ids all lie below the counter (true of
every state the program builds), each returned id of a real entry — neither
"." nor ".." — is absent from both maps, so a subsequent getattr on it fails
with InodeNotFound. -/
theorem readdir2_frame (fuel : Nat) (drive : Drive) (st : State) (ino off : Nat)
    (out : Outcome (List DirEntry)) (st' : State)
    (h : readdir2 fuel drive st ino off = (out, st')) :
    st'.inodes = st.inodes ∧ st'.files = st.files ∧ st'.nextFd = st.nextFd ∧
    ((∀ l, out ≠ Outcome.ok l) → st' = st) ∧
    (∀ entries, out = Outcome.ok entries →
      (∀ (path : String) (props : List PropRec),
         fullPath fuel st ino = Outcome.ok path →
         drive path = Except.ok props →
         st'.nextInode = st.nextInode + (props.length - off)) ∧
      (freshInv st → ∀ e ∈ entries, e.2.2 ≠ "." → e.2.2 ≠ ".." →
         assocGet e.1 st'.inodes = none ∧ assocGet e.1 st'.files = none ∧
         ∀ env, getattributes env st' e.1 =
           Except.error (Errors.InodeNotFound e.1))) := by
  unfold readdir2 at h
  split at h
  next hino =>
    injection h with h1 h2
    subst h1; subst h2
    refine ⟨rfl, rfl, rfl, fun _ => rfl, ?_⟩
    intro entries hout
    simp at hout
  next nd hino =>
    split at h
    next e hfp =>
      injection h with h1 h2
      subst h1; subst h2
      refine ⟨rfl, rfl, rfl, fun _ => rfl, ?_⟩
      intro entries hout
      simp at hout
    next hfp =>
      injection h with h1 h2
      subst h1; subst h2
      refine ⟨rfl, rfl, rfl, fun _ => rfl, ?_⟩
      intro entries hout
      simp at hout
    next hfp =>
      injection h with h1 h2
      subst h1; subst h2
      refine ⟨rfl, rfl, rfl, fun _ => rfl, ?_⟩
      intro entries hout
      simp at hout
    next path hfp =>
      split at h
      next e hdr =>
        injection h with h1 h2
        subst h1; subst h2
        refine ⟨rfl, rfl, rfl, fun _ => rfl, ?_⟩
        intro entries hout
        simp at hout
      next props hdr =>
        split at h
        next hmp =>
          injection h with h1 h2
          subst h1; subst h2
          refine ⟨rfl, rfl, rfl, fun _ => rfl, ?_⟩
          intro entries hout
          simp at hout
        next files hmp =>
          injection h with h1 h2
          subst h1; subst h2
          obtain ⟨hfi, hff, hffd, hfn⟩ := allocLoop_frame (files.drop off) st
          refine ⟨hfi, hff, hffd, ?_, ?_⟩
          · intro hno
            exact absurd rfl (hno _)
          · intro entries hout
            injection hout with hent
            subst hent
            constructor
            · intro path' props' hfp' hdr'
              rw [hfp] at hfp'
              injection hfp' with hpp
              subst hpp
              rw [hdr] at hdr'
              injection hdr' with hps
              subst hps
              rw [hfn, List.length_drop, mapOpt_some_length _ props files hmp]
            · intro hfresh e he hdot1 hdot2
              rcases List.mem_append.mp he with hb | hl
              · unfold readdirBase at hb
                by_cases hoff : off = 0
                · rw [if_pos hoff] at hb
                  rcases List.mem_cons.mp hb with hb | hb
                  · rw [hb] at hdot2
                    simp at hdot2
                  · rcases List.mem_cons.mp hb with hb | hb
                    · rw [hb] at hdot1
                      simp at hdot1
                    · simp at hb
                · rw [if_neg hoff] at hb
                  simp at hb
              · have hge := allocLoop_ids (files.drop off) st e hl
                have hno_i : assocGet e.1 st.inodes = none :=
                  assocGet_none_of_lt st.inodes st.nextInode e.1 hfresh.1 hge
                have hno_f : assocGet e.1 st.files = none :=
                  assocGet_none_of_lt st.files st.nextInode e.1 hfresh.2 hge
                rw [hfi, hff]
                refine ⟨hno_i, hno_f, ?_⟩
                intro env
                simp [getattributes, hff, hno_f]

/-- Witness for C9 at the concrete root readdir: the maps are untouched, the
counter advanced by the single fetched entry, and the returned id 2 cannot be
resolved by getattr afterwards. -/
theorem readdir2_frame_witness :
    stRoot3.inodes = initState.inodes ∧ stRoot3.files = initState.files ∧
    stRoot3.nextInode = initState.nextInode + (1 - 0) ∧
    assocGet 2 stRoot3.inodes = none ∧
    getattributes env0 stRoot3 2 = Except.error (Errors.InodeNotFound 2) := by
  have heq : readdir2 10 drive0 initState 1 0 =
      (Outcome.ok [(1, FileType.Directory, ".."), (1, FileType.Directory, "."),
                   (2, FileType.RegularFile, "a.txt")], stRoot3) := by decide
  obtain ⟨h1, h2, _, _, h5⟩ := readdir2_frame 10 drive0 initState 1 0 _ stRoot3 heq
  have h6 := h5 _ rfl
  have hcount := h6.1 "/" [propA] (by decide) (by decide)
  have hmem := h6.2 (by decide) (2, FileType.RegularFile, "a.txt") (by decide)
    (by decide) (by decide)
  exact ⟨h1, h2, hcount, hmem.1, hmem.2.2 env0⟩

end RustWebdav
